import Mathlib

/-!
# Verification development for the car-listing browser

Shallow embedding of the client-side code of the repository
(`services/api.js`, `pages/CarList.jsx`, `pages/CarDetail.jsx`,
`components/CarCard.jsx`) together with the properties proved about it.

Modelling conventions:

* A JavaScript number that is a safe integer (at most `2^53 - 1` in
  magnitude) is modelled by an `Int`; its string conversion is its plain
  decimal digit string. Where the string conversion of a number matters
  (request parameters), any other number is represented by the text its
  string conversion yields, for example `1.5` or `1e+21`.
* An object is an association list in property order; a well-formed object
  has pairwise distinct keys.
* An asynchronous function is modelled by the state it leaves once its
  request has completed; the answer of the HTTP API to the request is an
  explicit argument `api : String → HttpResult α` (the URL is the argument).
-/

namespace MillionMiles

/-! ## JavaScript values -/

/-- A value as delivered by the HTTP API in a response body (`response.data`). -/
inductive Json where
  | null : Json
  | undefined : Json
  | bool (b : Bool) : Json
  | num (n : Int) : Json
  | str (s : String) : Json
  | arr (items : List Json) : Json
  | obj (props : List (String × Json)) : Json

/-- Outcome of one `api.get(url)` call: a response body, or a rejection whose
`error.response?.status` is `status` (`none` when there is no response). -/
inductive HttpResult (α : Type) where
  | ok (data : α) : HttpResult α
  | fail (status : Option Nat) : HttpResult α

/-- Scalar values held by the properties of a request-parameter object.
`num n` is the number n, a safe integer; `float text` is any other number
(non-integral, larger than `2^53 - 1` in magnitude, or not finite), given by
the text `String(x)` yields for it, such as `1.5` or `1e+21`. -/
inductive ParamValue where
  | null : ParamValue
  | undefined : ParamValue
  | num (n : Int) : ParamValue
  | float (text : String) : ParamValue
  | str (s : String) : ParamValue
  deriving DecidableEq

/-- An object whose property values are scalars, in property order. -/
abbrev ParamObject := List (String × ParamValue)

/-- Keys of an object, in property order (`Object.keys`). -/
def objectKeys (o : ParamObject) : List String := o.map Prod.fst

/-- Property definition `o[k] = v`: an existing key keeps its position and
takes the new value, a new key is added last. -/
def setProp : ParamObject → String → ParamValue → ParamObject
  | [], k, v => [(k, v)]
  | (k0, v0) :: rest, k, v =>
    if k0 = k then (k0, v) :: rest else (k0, v0) :: setProp rest k v

/-- Object spread `{...src}` on top of the properties already in `base`. -/
def spread (base src : ParamObject) : ParamObject :=
  src.foldl (fun o kv => setProp o kv.1 kv.2) base

/-- The constant `Number.MAX_SAFE_INTEGER`, `2^53 - 1`. -/
def maxSafeInteger : Nat := 9007199254740991

/-- Whether a value stands for a value of the program: a `num` is a safe
integer, and the text of a `float` is not empty (the string conversion of a
number never is). -/
def ParamValue.isSafe : ParamValue → Bool
  | .num n => decide (n.natAbs ≤ maxSafeInteger)
  | .float text => decide (text ≠ "")
  | _ => true

/-- Whether every number of an object stands for a number of the program. -/
def numbersSafe (o : ParamObject) : Bool :=
  o.all (fun kv => kv.2.isSafe)

/-- Decimal rendering of a safe integer (`String(n)`). -/
def numberToString : Int → String
  | Int.ofNat n => Nat.repr n
  | Int.negSucc n => "-" ++ Nat.repr (n + 1)

/-- The string conversion `URLSearchParams.append` applies to a value. -/
def ParamValue.toStr : ParamValue → String
  | .null => "null"
  | .undefined => "undefined"
  | .num n => numberToString n
  | .float text => text
  | .str s => s

/-! ## `URLSearchParams` serialisation -/

/-- UTF-8 bytes of one code point. -/
def utf8Bytes (c : Char) : List Nat :=
  let n := c.toNat
  if n < 0x80 then [n]
  else if n < 0x800 then [0xC0 + n / 64, 0x80 + n % 64]
  else if n < 0x10000 then [0xE0 + n / 4096, 0x80 + (n / 64) % 64, 0x80 + n % 64]
  else [0xF0 + n / 262144, 0x80 + (n / 4096) % 64, 0x80 + (n / 64) % 64, 0x80 + n % 64]

/-- Upper-case hexadecimal digit. -/
def hexDigit (n : Nat) : Char :=
  if n < 10 then Char.ofNat (48 + n) else Char.ofNat (55 + n)

/-- Bytes the `application/x-www-form-urlencoded` serialiser leaves as they
are: ASCII letters and digits and `*`, `-`, `.`, `_`. -/
def isFormSafe (b : Nat) : Bool :=
  (0x30 ≤ b && b ≤ 0x39) || (0x41 ≤ b && b ≤ 0x5A) || (0x61 ≤ b && b ≤ 0x7A)
    || b == 0x2A || b == 0x2D || b == 0x2E || b == 0x5F

/-- Serialisation of one byte: space becomes `+`, a safe byte is itself, any
other byte is percent-encoded. -/
def encodeByte (b : Nat) : List Char :=
  if b = 0x20 then ['+']
  else if isFormSafe b then [Char.ofNat b]
  else ['%', hexDigit (b / 16), hexDigit (b % 16)]

/-- The `application/x-www-form-urlencoded` encoding of a string. -/
def urlencode (s : String) : String :=
  String.mk (s.data.flatMap (fun c => (utf8Bytes c).flatMap encodeByte))

/-- One `name=value` pair of a serialised query. -/
def encodePair (p : String × String) : String :=
  urlencode p.1 ++ "=" ++ urlencode p.2

/-- The method `URLSearchParams.prototype.toString`. -/
def paramsToString (params : List (String × String)) : String :=
  "&".intercalate (params.map encodePair)

/-! ## `services/api.js` -/

/-- The test `value !== null && value !== undefined && value !== ''`. -/
def isPresent (v : ParamValue) : Bool :=
  decide (v ≠ ParamValue.null) && decide (v ≠ ParamValue.undefined)
    && decide (v ≠ ParamValue.str "")

/-- The `URLSearchParams` that `carService.getCars` fills from its argument:
`Object.entries(filters).forEach` appends every present entry. -/
def getCarsParams (filters : ParamObject) : List (String × String) :=
  filters.foldl
    (fun params kv => if isPresent kv.2 then params ++ [(kv.1, kv.2.toStr)] else params) []

/-- The query string `params.toString()` of `carService.getCars`. -/
def getCarsQuery (filters : ParamObject) : String :=
  paramsToString (getCarsParams filters)

/-- The URL requested by `carService.getCars`. -/
def getCarsUrl (filters : ParamObject) : String :=
  "/cars?" ++ getCarsQuery filters

/-- The function `carService.getCars`: the response body, or the error
message it throws. -/
def getCars (filters : ParamObject) (api : String → HttpResult Json) : Except String Json :=
  match api (getCarsUrl filters) with
  | .ok data => .ok data
  | .fail _ => .error "Failed to load car listings"

/-! ## Sort state (`components/SortControls.jsx`) -/

/-- The values of the `sort-by` select. -/
inductive SortBy where
  | id | price | year | manufacturer
  deriving DecidableEq

/-- The values of the `sort-order` select. -/
inductive SortOrder where
  | asc | desc
  deriving DecidableEq

/-- The option value of a sort field. -/
def SortBy.value : SortBy → String
  | .id => "id"
  | .price => "price"
  | .year => "year"
  | .manufacturer => "manufacturer"

/-- The option value of a sort direction. -/
def SortOrder.value : SortOrder → String
  | .asc => "asc"
  | .desc => "desc"

/-- The `sort` state of the listing view. -/
structure SortState where
  sortBy : SortBy
  sortOrder : SortOrder
  deriving DecidableEq

/-- The eight filter keys of the filter mapping. -/
def filterKeys : List String :=
  ["manufacturer", "fuel_type", "transmission", "office_city_state",
   "min_price", "max_price", "min_year", "max_year"]

/-- A filter mapping: an object whose keys are filter keys. -/
def IsFilterMapping (F : ParamObject) : Prop :=
  (objectKeys F).Nodup ∧ ∀ k ∈ objectKeys F, k ∈ filterKeys

/-- The object literal `{...filters, sort_by, sort_order, offset, limit: 20}`
that `loadCars` passes to `carService.getCars`. -/
def requestObject (filters : ParamObject) (sort : SortState) (offset : Nat) : ParamObject :=
  setProp (setProp (setProp (setProp (spread [] filters)
    "sort_by" (.str sort.sortBy.value))
    "sort_order" (.str sort.sortOrder.value))
    "offset" (.num offset))
    "limit" (.num 20)

/-- The query string of the list request of `loadCars`. -/
def loadCarsQuery (filters : ParamObject) (sort : SortState) (offset : Nat) : String :=
  getCarsQuery (requestObject filters sort offset)

/-! ## `pages/CarList.jsx` -/

/-- The test `Array.isArray(v)`. -/
def isArray : Json → Bool
  | .arr _ => true
  | _ => false

/-- Truthiness of a value, as tested by `&&`. -/
def truthy : Json → Bool
  | .null => false
  | .undefined => false
  | .bool b => b
  | .num n => decide (n ≠ 0)
  | .str s => decide (s ≠ "")
  | .arr _ => true
  | .obj _ => true

/-- Property read `v.k` for a name `k` that is not a built-in property of
strings or arrays: a `TypeError` on `null` and `undefined`, the own property of
an object, `undefined` on anything else. -/
def getProp (v : Json) (k : String) : Except String Json :=
  match v with
  | .null => .error "TypeError"
  | .undefined => .error "TypeError"
  | .obj props => .ok ((props.lookup k).getD .undefined)
  | _ => .ok .undefined

/-- The elements of an array value. -/
def arrayItems : Json → List Json
  | .arr items => items
  | _ => []

/-- The condition `response && Array.isArray(response.k)`: the property is
read only when `response` is truthy. -/
def hasArrayProp (response : Json) (k : String) : Except String Bool :=
  if truthy response then (getProp response k).map isArray else .ok false

/-- The `carsData` computed by `loadCars` from the response (lines 33-45). -/
def normalizeResponse (response : Json) : Except String (List Json) :=
  if isArray response then .ok (arrayItems response)
  else (hasArrayProp response "cars").bind fun c =>
    if c then (getProp response "cars").map arrayItems
    else (hasArrayProp response "data").bind fun d =>
      if d then (getProp response "data").map arrayItems
      else (hasArrayProp response "results").bind fun r =>
        if r then (getProp response "results").map arrayItems
        else .ok []

/-- The state of the `CarList` component. -/
structure ListState where
  cars : List Json
  loading : Bool
  error : Option String
  filters : ParamObject
  hasMore : Bool
  sort : SortState

/-- The state `CarList` is created with. -/
def ListState.initial : ListState :=
  { cars := [], loading := true, error := none, filters := [], hasMore := true,
    sort := { sortBy := .id, sortOrder := .asc } }

/-- One call of `carService.getCars` made by `loadCars`: the filters, sort and
offset it was issued with, the URL requested and what the call returned. -/
structure Fetch where
  filters : ParamObject
  sort : SortState
  offset : Nat
  url : String
  result : Except String Json

/-- The message `loadCars` stores when the fetch fails. -/
def listErrorMessage : String := "Не удалось загрузить список автомобилей."

/-- The function `loadCars(offset = 0)`, run until its request has completed:
the state it leaves and the request it made. `offsetArg = none` is a call
without argument. -/
def loadCars (s : ListState) (offsetArg : Option Nat) (api : String → HttpResult Json) :
    ListState × Fetch :=
  let offset := offsetArg.getD 0
  let request := requestObject s.filters s.sort offset
  let result := getCars request api
  let s1 := { s with loading := true }
  let body : Except String ListState :=
    result.bind fun response =>
      (normalizeResponse response).bind fun carsData =>
        .ok { s1 with
              cars := if offset = 0 then carsData else s1.cars ++ carsData
              hasMore := decide (carsData.length = 20)
              error := none }
  let s2 : ListState :=
    match body with
    | .ok s3 => s3
    | .error _ =>
      { s1 with error := some listErrorMessage, cars := if offset = 0 then [] else s1.cars }
  ({ s2 with loading := false },
   { filters := s.filters, sort := s.sort, offset := offset, url := getCarsUrl request,
     result := result })

/-- The function `loadMore`: it calls `loadCars(cars.length)` when the view is
not loading and more pages are believed to exist, and does nothing otherwise. -/
def loadMore (s : ListState) (api : String → HttpResult Json) : ListState × Option Fetch :=
  if !s.loading && s.hasMore then
    let r := loadCars s (some s.cars.length) api
    (r.1, some r.2)
  else (s, none)

/-- The handler `handleFiltersChange` followed by the effect on
`[filters, sort]`, which calls `loadCars()`. -/
def handleFiltersChange (s : ListState) (newFilters : ParamObject)
    (api : String → HttpResult Json) : ListState × Fetch :=
  loadCars { s with filters := newFilters } none api

/-- The handler `handleSortChange` followed by the effect on
`[filters, sort]`, which calls `loadCars()`. -/
def handleSortChange (s : ListState) (newSort : SortState)
    (api : String → HttpResult Json) : ListState × Fetch :=
  loadCars { s with sort := newSort } none api

/-- The retry button of the error view: `loadCars()`. -/
def retry (s : ListState) (api : String → HttpResult Json) : ListState × Fetch :=
  loadCars s none api

/-- What the listing view renders. -/
inductive ListView where
  | error (message : String) : ListView
  | page (loadingIndicator : Bool) (cards : List Json) (noResults : Bool)
      (loadMoreDisabled : Option Bool) : ListView

/-- The element tree `CarList` returns when each card can be built, the
items of `cars` standing for their cards; `loadMoreDisabled` is `none` when
the load-more button is not rendered and its `disabled` attribute otherwise.
Building the card of an item reads `car.id`, which throws on a null or
undefined item; that path is not part of this layout. -/
def renderList (s : ListState) : ListView :=
  match s.error with
  | some message =>
    if message ≠ "" then .error message
    else if s.loading && decide (s.cars.length = 0) then .page true [] false none
    else .page false s.cars (decide (s.cars.length = 0) && !s.loading)
      (if s.hasMore && decide (0 < s.cars.length) then some s.loading else none)
  | none =>
    if s.loading && decide (s.cars.length = 0) then .page true [] false none
    else .page false s.cars (decide (s.cars.length = 0) && !s.loading)
      (if s.hasMore && decide (0 < s.cars.length) then some s.loading else none)

/-- The four entries `loadCars` adds after the filters. -/
def pagingEntries (sort : SortState) (offset : Nat) : ParamObject :=
  [("sort_by", .str sort.sortBy.value), ("sort_order", .str sort.sortOrder.value),
   ("offset", .num offset), ("limit", .num 20)]

/-- The page `loadCars` works with after a response `data`: the value of
`carsData`. -/
def normalizedPage (data : Json) : List Json :=
  match normalizeResponse data with
  | .ok page => page
  | .error _ => []

/-- The array stored under property `k` of an object, if there is one. -/
def arrayProp (response : Json) (k : String) : Option (List Json) :=
  match response with
  | .obj props =>
    match props.lookup k with
    | some (.arr items) => some items
    | _ => none
  | _ => none

/-- The page the specification names for a response: the response itself when
it is an array, otherwise the first of `cars`, `data`, `results` that is an
array, otherwise the empty list. -/
def expectedPage (response : Json) : List Json :=
  match response with
  | .arr items => items
  | _ =>
    match arrayProp response "cars" with
    | some items => items
    | none =>
      match arrayProp response "data" with
      | some items => items
      | none =>
        match arrayProp response "results" with
        | some items => items
        | none => []

/-- The events of the listing view; each carries the answer of the API to
the request the event may issue. -/
inductive ListEvent where
  | mount (api : String → HttpResult Json) : ListEvent
  | filtersChange (newFilters : ParamObject) (api : String → HttpResult Json) : ListEvent
  | sortChange (newSort : SortState) (api : String → HttpResult Json) : ListEvent
  | loadMore (api : String → HttpResult Json) : ListEvent
  | retry (api : String → HttpResult Json) : ListEvent

/-- One event of the listing view, its fetch completing before the next
event: the new state and the request issued, if any. -/
def stepList (s : ListState) : ListEvent → ListState × Option Fetch
  | .mount api => ((loadCars s none api).1, some (loadCars s none api).2)
  | .filtersChange newFilters api =>
    ((handleFiltersChange s newFilters api).1, some (handleFiltersChange s newFilters api).2)
  | .sortChange newSort api =>
    ((handleSortChange s newSort api).1, some (handleSortChange s newSort api).2)
  | .loadMore api => loadMore s api
  | .retry api => ((retry s api).1, some (retry s api).2)

/-- A sequence of events run from state `s`; `log` collects the requests
issued, oldest first. -/
def runList (s : ListState) (log : List Fetch) : List ListEvent → ListState × List Fetch
  | [] => (s, log)
  | e :: es => runList (stepList s e).1 (log ++ (stepList s e).2.toList) es

/-- The requests issued since pagination last restarted: the last request
with offset 0 and those after it. -/
def currentSegment (log : List Fetch) : List Fetch :=
  log.foldl (fun seg f => if f.offset = 0 then [f] else seg ++ [f]) []

/-- The pages returned by the successful requests of a list of requests. -/
def fetchedPages (fetches : List Fetch) : List (List Json) :=
  fetches.filterMap fun f =>
    match f.result with
    | .ok data => some (normalizedPage data)
    | .error _ => none

/-! ## Display formatting (`components/CarCard.jsx`, `pages/CarDetail.jsx`) -/

/-- A numeric field of a record: missing (`null` or `undefined`) or a number. -/
inductive NumField where
  | null : NumField
  | undefined : NumField
  | num (n : Int) : NumField
  deriving DecidableEq

namespace CarCard

/-- The function `formatPrice` of the card; `toLocaleString` is the number
formatting of the runtime's locale. -/
def formatPrice (toLocaleString : Int → String) : NumField → String
  | .null => "N/A"
  | .undefined => "N/A"
  | .num n => if n = 0 then "N/A" else "₩" ++ toLocaleString n ++ "0,000"

/-- The function `formatMileage` of the card. -/
def formatMileage (toLocaleString : Int → String) : NumField → String
  | .null => "N/A"
  | .undefined => "N/A"
  | .num n => if n = 0 then "N/A" else toLocaleString n ++ " km"

end CarCard

/-- A photo descriptor of a detail record. -/
structure PhotoDescriptor where
  type : String

/-- The fields of a detail record read by the detail view: `photo` is `none`
when the photo reference is `null` or absent, `photos` is `none` when the
record has no `photos` array. -/
structure CarRecord where
  photo : Option String
  photos : Option (List PhotoDescriptor)
  price : NumField
  mileage : NumField

namespace CarDetail

/-- The function `formatPrice` of the detail view. -/
def formatPrice (toLocaleString : Int → String) : NumField → String
  | .null => "N/A"
  | .undefined => "N/A"
  | .num n => if n = 0 then "N/A" else "₩" ++ toLocaleString (n * 10000)

/-- The function `formatMileage` of the detail view. -/
def formatMileage (toLocaleString : Int → String) : NumField → String
  | .null => "N/A"
  | .undefined => "N/A"
  | .num n => if n = 0 then "N/A" else toLocaleString n ++ " km"

/-- The placeholder image. -/
def placeholder : String := "/placeholder-car.jpg"

/-- The image URL template, filled with a photo reference and a type code. -/
def imageTemplate (photo type : String) : String :=
  "https://ci.encar.com/carpicture" ++ photo ++ type
    ++ ".jpg?impolicy=heightRate&rh=696&cw=1160&ch=696&cg=Center"

/-- The function `getImageUrl(photo, type = '001')`. -/
def getImageUrl (photo : Option String) (type : String := "001") : String :=
  match photo with
  | none => placeholder
  | some p => if p = "" then placeholder else imageTemplate p type

/-- The function `getImages` for the loaded record `car` (`none` is `null`). -/
def getImages (car : Option CarRecord) : List String :=
  match car.bind (fun c => c.photos) with
  | none => [getImageUrl (car.bind (fun c => c.photo))]
  | some photos =>
    photos.map (fun photo => getImageUrl (car.bind (fun c => c.photo)) photo.type)

/-- The function `carService.getCar`. -/
def getCar (id : String) (api : String → HttpResult (Option CarRecord)) :
    Except String (Option CarRecord) :=
  match api ("/cars/" ++ id) with
  | .ok data => .ok data
  | .fail status =>
    if status = some 404 then .error "Car not found"
    else .error "Failed to load car details"

/-- The state of the `CarDetail` component; `id` is the route identifier. -/
structure DetailState where
  id : String
  car : Option CarRecord
  loading : Bool
  error : Option String
  currentImageIndex : Nat

/-- The state `CarDetail` is created with for route identifier `id`. -/
def DetailState.initial (id : String) : DetailState :=
  { id := id, car := none, loading := true, error := none, currentImageIndex := 0 }

/-- The function `loadCar`, run until its request has completed. -/
def loadCar (s : DetailState) (api : String → HttpResult (Option CarRecord)) : DetailState :=
  let s1 := { s with loading := true }
  let s2 : DetailState :=
    match getCar s.id api with
    | .ok carData => { s1 with car := carData, error := none }
    | .error _ => { s1 with error := some "Failed to load car information." }
  { s2 with loading := false }

/-- The events of the detail view after it is mounted. -/
inductive DetailEvent where
  | click (index : Nat) : DetailEvent
  | idChange (newId : String) (api : String → HttpResult (Option CarRecord)) : DetailEvent

/-- One event of the detail view: a thumbnail click runs
`setCurrentImageIndex(index)`, a change of the route identifier makes the
effect on `[id]` run `loadCar()`. -/
def stepDetail (s : DetailState) : DetailEvent → DetailState
  | .click index => { s with currentImageIndex := index }
  | .idChange newId api => loadCar { s with id := newId } api

/-- Mounting the view at `id`: the effect runs `loadCar()`. -/
def mountDetail (id : String) (api : String → HttpResult (Option CarRecord)) : DetailState :=
  loadCar (DetailState.initial id) api

/-- A sequence of events run from state `s`. -/
def runDetail (s : DetailState) (events : List DetailEvent) : DetailState :=
  events.foldl stepDetail s

/-- The index of the last thumbnail click of a sequence of events. -/
def lastClick (events : List DetailEvent) : Option Nat :=
  events.foldl
    (fun acc e =>
      match e with
      | .click index => some index
      | .idChange _ _ => acc) none

/-- What the detail view renders. -/
inductive DetailView where
  | loading : DetailView
  | message (text backLink : String) : DetailView
  | detail (backLink : String) (mainImage : Option String) (thumbnails : List String)
      (activeThumbnail : Nat) (price mileage : String) : DetailView
  deriving DecidableEq

/-- The text of the not-found branch of the detail view. -/
def notFoundMessage : String := "Авто не найдено."

/-- The render of `CarDetail`. -/
def renderDetail (toLocaleString : Int → String) (s : DetailState) : DetailView :=
  if s.loading then .loading
  else if s.error.isSome && decide (s.error ≠ some "") then
    .message (s.error.getD "") "/"
  else
    match s.car with
    | none => .message notFoundMessage "/"
    | some car =>
      let images := getImages (some car)
      .detail "/" (images.get? s.currentImageIndex)
        (if 1 < images.length then images else []) s.currentImageIndex
        (formatPrice toLocaleString car.price) (formatMileage toLocaleString car.mileage)

end CarDetail

/-! ## Reading a query string -/

/-- The names of the parameters of a query string, as written in it: the
string is cut at every `&`, empty pieces are skipped, and the name of a piece
is what stands before its first `=`. -/
def queryNames (query : String) : List String :=
  ((query.data.splitOn '&').filter (fun piece => !piece.isEmpty)).map
    (fun piece => String.mk (piece.takeWhile (fun c => c != '=')))

/-! ## Number formatting of the `en-US` locale -/

/-- Grouping of a digit string given lowest digit first: a comma is put
after every third digit that has a further digit after it. -/
def groupReversed : List Char → List Char
  | a :: b :: c :: d :: rest => a :: b :: c :: ',' :: groupReversed (d :: rest)
  | digits => digits

/-- Decimal digits of a natural number in groups of three, separated by
commas. -/
def groupThousands (n : Nat) : String :=
  String.mk (groupReversed (Nat.repr n).data.reverse).reverse

/-- The method `Number.prototype.toLocaleString()` on an integer-valued
number when the locale of the runtime is `en-US`. -/
def toLocaleStringEnUS : Int → String
  | Int.ofNat n => groupThousands n
  | Int.negSucc n => "-" ++ groupThousands (n + 1)

/-! ## Availability of the load-more button -/

/-- Whether the load-more button of the listing view is rendered and not
disabled, so that a click can call `loadMore`. -/
def loadMoreClickable (s : ListState) : Bool :=
  match renderList s with
  | .page _ _ _ (some disabled) => !disabled
  | _ => false

/-! ## Lemmas on objects and on the query of `getCars` -/

theorem setProp_append_of_not_mem (o : ParamObject) (k : String) (v : ParamValue)
    (h : k ∉ objectKeys o) : setProp o k v = o ++ [(k, v)] := by
  induction o with
  | nil => rfl
  | cons kv rest ih =>
    obtain ⟨k0, v0⟩ := kv
    simp only [objectKeys, List.map_cons, List.mem_cons, not_or] at h
    have hne : ¬ k0 = k := fun e => h.1 e.symm
    simp only [setProp, hne, if_false, List.cons_append]
    rw [ih h.2]

theorem spread_eq_append (src base : ParamObject)
    (h : (objectKeys (base ++ src)).Nodup) : spread base src = base ++ src := by
  induction src generalizing base with
  | nil => simp [spread]
  | cons kv rest ih =>
    have hk : kv.1 ∉ objectKeys base := by
      simp only [objectKeys, List.map_append, List.map_cons] at h
      have := (List.nodup_append.mp h).2.2
      intro hmem
      exact this hmem (List.mem_cons_self _ _)
    have hstep : spread base (kv :: rest) = spread (setProp base kv.1 kv.2) rest := rfl
    rw [hstep, setProp_append_of_not_mem base kv.1 kv.2 hk, ih]
    · simp
    · simpa using h

theorem getCarsParams_foldl (P : ParamObject) (acc : List (String × String)) :
    P.foldl
      (fun params kv => if isPresent kv.2 then params ++ [(kv.1, kv.2.toStr)] else params) acc
    = acc ++ (P.filter (fun kv => isPresent kv.2)).map (fun kv => (kv.1, kv.2.toStr)) := by
  induction P generalizing acc with
  | nil => simp
  | cons kv rest ih =>
    simp only [List.foldl_cons]
    rw [ih]
    by_cases hp : isPresent kv.2 = true
    · simp [List.filter_cons, hp]
    · simp [List.filter_cons, hp]

theorem getCarsParams_eq_filter (P : ParamObject) :
    getCarsParams P
      = (P.filter (fun kv => isPresent kv.2)).map (fun kv => (kv.1, kv.2.toStr)) := by
  unfold getCarsParams
  rw [getCarsParams_foldl]
  simp

theorem isPresent_iff (v : ParamValue) :
    isPresent v = true ↔ v ≠ .null ∧ v ≠ .undefined ∧ v ≠ .str "" := by
  simp [isPresent, and_assoc]

theorem sortBy_value_ne_empty (b : SortBy) : b.value ≠ "" := by
  cases b <;> decide

theorem sortOrder_value_ne_empty (d : SortOrder) : d.value ≠ "" := by
  cases d <;> decide

theorem requestObject_eq (F : ParamObject) (sort : SortState) (offset : Nat)
    (hF : IsFilterMapping F) :
    requestObject F sort offset = F ++ pagingEntries sort offset := by
  obtain ⟨hnd, hkeys⟩ := hF
  have h1 : "sort_by" ∉ objectKeys F := fun h => absurd (hkeys _ h) (by decide)
  have h2 : "sort_order" ∉ objectKeys F := fun h => absurd (hkeys _ h) (by decide)
  have h3 : "offset" ∉ objectKeys F := fun h => absurd (hkeys _ h) (by decide)
  have h4 : "limit" ∉ objectKeys F := fun h => absurd (hkeys _ h) (by decide)
  have e0 : spread [] F = F := by
    rw [spread_eq_append F [] (by simpa using hnd)]
    rfl
  have e1 := setProp_append_of_not_mem F "sort_by" (.str sort.sortBy.value) h1
  have e2 := setProp_append_of_not_mem (F ++ [("sort_by", .str sort.sortBy.value)])
    "sort_order" (.str sort.sortOrder.value) (by
      simp only [objectKeys, List.map_append, List.mem_append, not_or, List.map_cons,
        List.map_nil, List.mem_singleton] at *
      exact ⟨h2, by simp⟩)
  have e3 := setProp_append_of_not_mem
    ((F ++ [("sort_by", .str sort.sortBy.value)])
      ++ [("sort_order", .str sort.sortOrder.value)])
    "offset" (.num offset) (by
      simp only [objectKeys, List.map_append, List.mem_append, not_or, List.map_cons,
        List.map_nil, List.mem_singleton] at *
      exact ⟨⟨h3, by simp⟩, by simp⟩)
  have e4 := setProp_append_of_not_mem
    (((F ++ [("sort_by", .str sort.sortBy.value)])
      ++ [("sort_order", .str sort.sortOrder.value)]) ++ [("offset", .num offset)])
    "limit" (.num 20) (by
      simp only [objectKeys, List.map_append, List.mem_append, not_or, List.map_cons,
        List.map_nil, List.mem_singleton] at *
      exact ⟨⟨⟨h4, by simp⟩, by simp⟩, by simp⟩)
  unfold requestObject
  rw [e0, e1, e2, e3, e4]
  simp [pagingEntries]

theorem getCarsParams_paging (sort : SortState) (offset : Nat) :
    getCarsParams (pagingEntries sort offset)
      = [("sort_by", sort.sortBy.value), ("sort_order", sort.sortOrder.value),
         ("offset", Nat.repr offset), ("limit", "20")] := by
  have hb := sortBy_value_ne_empty sort.sortBy
  have hd := sortOrder_value_ne_empty sort.sortOrder
  rw [getCarsParams_eq_filter]
  simp [pagingEntries, isPresent, hb, hd, ParamValue.toStr, numberToString]
  rfl

/-! ## The list request -/

theorem getCarsParams_requestObject (F : ParamObject) (sort : SortState) (offset : Nat)
    (hF : IsFilterMapping F) :
    getCarsParams (requestObject F sort offset)
      = (F.filter (fun kv => isPresent kv.2)).map (fun kv => (kv.1, kv.2.toStr))
        ++ [("sort_by", sort.sortBy.value), ("sort_order", sort.sortOrder.value),
            ("offset", Nat.repr offset), ("limit", "20")] := by
  rw [requestObject_eq F sort offset hF, ← getCarsParams_paging sort offset,
    getCarsParams_eq_filter, getCarsParams_eq_filter]
  simp

theorem isPresent_eq_decide :
    (fun kv : String × ParamValue => isPresent kv.2)
      = (fun kv => decide (kv.2 ≠ .null ∧ kv.2 ≠ .undefined ∧ kv.2 ≠ .str "")) := by
  funext kv
  simp [isPresent, Bool.and_assoc]

/-! ## Lemmas on serialised queries -/

theorem char_ofNat_toNat (m : Nat) : (Char.ofNat m).toNat = m ∨ (Char.ofNat m).toNat = 0 := by
  unfold Char.ofNat
  split
  · left
    simp [Char.ofNatAux, Char.toNat, UInt32.toNat]
  · right
    rfl

theorem hexDigit_not_separator (n : Nat) : hexDigit n ≠ '&' ∧ hexDigit n ≠ '=' := by
  unfold hexDigit
  split
  · rcases char_ofNat_toNat (48 + n) with h | h
    · constructor <;> intro e <;> rw [e] at h <;> simp at h <;> omega
    · constructor <;> intro e <;> rw [e] at h <;> simp at h
  · rcases char_ofNat_toNat (55 + n) with h | h
    · constructor <;> intro e <;> rw [e] at h <;> simp at h <;> omega
    · constructor <;> intro e <;> rw [e] at h <;> simp at h

theorem encodeByte_not_separator (b : Nat) : ∀ c ∈ encodeByte b, c ≠ '&' ∧ c ≠ '=' := by
  intro c hc
  unfold encodeByte at hc
  split at hc
  · simp at hc; subst hc; decide
  · split at hc
    · rename_i hsafe
      simp only [List.mem_singleton] at hc
      subst hc
      rcases char_ofNat_toNat b with h | h
      · constructor <;> intro e <;> rw [e] at h <;> simp at h <;> subst h <;> simp [isFormSafe] at hsafe
      · constructor <;> intro e <;> rw [e] at h <;> simp at h
    · simp only [List.mem_cons, List.mem_singleton, List.not_mem_nil, or_false] at hc
      rcases hc with h | h | h
      · subst h; decide
      · subst h; exact hexDigit_not_separator _
      · subst h; exact hexDigit_not_separator _

theorem urlencode_not_separator (s : String) :
    ∀ c ∈ (urlencode s).data, c ≠ '&' ∧ c ≠ '=' := by
  intro c hc
  simp only [urlencode, List.mem_flatMap] at hc
  obtain ⟨a, -, b, -, hb⟩ := hc
  exact encodeByte_not_separator b c hb

theorem intercalate_go_data (acc s : String) (l : List String) :
    (String.intercalate.go acc s l).data = acc.data ++ l.flatMap (fun a => s.data ++ a.data) := by
  induction l generalizing acc with
  | nil => simp [String.intercalate.go]
  | cons a as ih => simp [String.intercalate.go, ih, String.data_append]

theorem list_intercalate_cons (sep : List Char) (a : List Char) (as : List (List Char)) :
    sep.intercalate (a :: as) = a ++ as.flatMap (fun b => sep ++ b) := by
  induction as generalizing a with
  | nil => simp [List.intercalate]
  | cons b bs ih =>
    have := ih b
    simp only [List.intercalate, List.intersperse] at this ⊢
    simp [List.flatMap_cons, this]

theorem string_intercalate_data (l : List String) (h : l ≠ []) :
    ("&".intercalate l).data = ['&'].intercalate (l.map String.data) := by
  cases l with
  | nil => exact absurd rfl h
  | cons a as =>
    rw [List.map_cons, list_intercalate_cons]
    show (String.intercalate.go a "&" as).data = _
    rw [intercalate_go_data]
    simp [List.flatMap_map]

theorem takeWhile_name (name rest : List Char) (h : ∀ c ∈ name, c ≠ '=') :
    (name ++ '=' :: rest).takeWhile (fun c => c != '=') = name := by
  induction name with
  | nil => simp
  | cons a as ih =>
    have ha : a ≠ '=' := h a (List.mem_cons_self _ _)
    simp only [List.cons_append, List.takeWhile_cons, bne_iff_ne, ne_eq, ha, not_false_eq_true,
      if_true, List.cons.injEq, true_and]
    simpa using ih (fun c hc => h c (List.mem_cons_of_mem _ hc))

theorem queryNames_paramsToString (params : List (String × String)) :
    queryNames (paramsToString params) = params.map (fun p => urlencode p.1) := by
  by_cases hp : params = []
  · subst hp
    decide
  · have hne : params.map encodePair ≠ [] := by simpa using hp
    unfold queryNames paramsToString
    rw [string_intercalate_data _ hne]
    have hsplit := List.splitOn_intercalate ((params.map encodePair).map String.data) '&'
      (by
        intro l hl
        simp only [List.map_map, List.mem_map, Function.comp] at hl
        obtain ⟨p, -, rfl⟩ := hl
        simp only [encodePair, String.data_append, List.mem_append, not_or]
        exact ⟨⟨fun h => (urlencode_not_separator p.1 _ h).1 rfl, by decide⟩,
          fun h => (urlencode_not_separator p.2 _ h).1 rfl⟩)
      (by simpa using hp)
    rw [hsplit]
    simp only [List.map_map, List.filter_map, Function.comp]
    have hfilter : params.filter
        ((fun piece : List Char => !piece.isEmpty) ∘ String.data ∘ encodePair) = params := by
      rw [List.filter_eq_self]
      intro p _
      simp [encodePair, String.data_append]
    rw [hfilter]
    apply List.map_congr_left
    intro p _
    simp only [Function.comp, encodePair, String.data_append, List.append_assoc]
    have hname := takeWhile_name (urlencode p.1).data (urlencode p.2).data
      (fun c hc => (urlencode_not_separator p.1 c hc).2)
    rw [List.singleton_append, hname]

theorem repr_digits (n : Nat) :
    ∀ c ∈ (Nat.repr n).data, c ∈ ['0', '1', '2', '3', '4', '5', '6', '7', '8', '9'] := by
  have hd : ∀ m, m < 10 → Nat.digitChar m ∈ ['0', '1', '2', '3', '4', '5', '6', '7', '8', '9'] := by
    decide
  have hcore : ∀ (fuel k : Nat) (ds : List Char),
      (∀ c ∈ ds, c ∈ ['0', '1', '2', '3', '4', '5', '6', '7', '8', '9']) →
      ∀ c ∈ Nat.toDigitsCore 10 fuel k ds,
        c ∈ ['0', '1', '2', '3', '4', '5', '6', '7', '8', '9'] := by
    intro fuel
    induction fuel with
    | zero => intro k ds h c hc; exact h c (by simpa [Nat.toDigitsCore] using hc)
    | succ f ih =>
      intro k ds h c hc
      have hds : ∀ c ∈ Nat.digitChar (k % 10) :: ds,
          c ∈ ['0', '1', '2', '3', '4', '5', '6', '7', '8', '9'] := by
        intro c hc
        rcases List.mem_cons.mp hc with h1 | h1
        · rw [h1]; exact hd _ (Nat.mod_lt _ (by decide))
        · exact h c h1
      simp only [Nat.toDigitsCore] at hc
      split at hc
      · exact hds c hc
      · exact ih _ _ hds c hc
  intro c hc
  exact hcore _ _ [] (by simp) c (by simpa [Nat.repr, Nat.toDigits, List.asString] using hc)

theorem urlencode_eq_self (s : String)
    (h : ∀ c ∈ s.data, (utf8Bytes c).flatMap encodeByte = [c]) : urlencode s = s := by
  have hl : ∀ l : List Char, (∀ c ∈ l, (utf8Bytes c).flatMap encodeByte = [c]) →
      l.flatMap (fun c => (utf8Bytes c).flatMap encodeByte) = l := by
    intro l
    induction l with
    | nil => intro _; rfl
    | cons a as ih =>
      intro hl
      rw [List.flatMap_cons, hl a (List.mem_cons_self _ _),
        ih (fun c hc => hl c (List.mem_cons_of_mem _ hc))]
      rfl
  unfold urlencode
  rw [hl s.data h]

theorem urlencode_repr (n : Nat) : urlencode (Nat.repr n) = Nat.repr n := by
  apply urlencode_eq_self
  intro c hc
  have hdig := repr_digits n c hc
  revert c
  suffices h : ∀ c ∈ ['0', '1', '2', '3', '4', '5', '6', '7', '8', '9'],
      (utf8Bytes c).flatMap encodeByte = [c] from fun c _ hc => h c hc
  decide

theorem urlencode_filterKey : ∀ k ∈ filterKeys, urlencode k = k := by
  decide

theorem urlencode_pagingKey :
    ∀ k ∈ ["sort_by", "sort_order", "offset", "limit"], urlencode k = k := by
  decide

theorem urlencode_sortBy (b : SortBy) : urlencode b.value = b.value := by
  cases b <;> decide

theorem urlencode_sortOrder (d : SortOrder) : urlencode d.value = d.value := by
  cases d <;> decide

theorem queryNames_getCarsQuery (P : ParamObject)
    (hsafe : ∀ key ∈ objectKeys P, urlencode key = key) :
    queryNames (getCarsQuery P) = (P.filter (fun kv => isPresent kv.2)).map Prod.fst := by
  unfold getCarsQuery
  rw [queryNames_paramsToString, getCarsParams_eq_filter, List.map_map]
  apply List.map_congr_left
  intro kv hkv
  exact hsafe kv.1 (List.mem_map_of_mem Prod.fst (List.mem_filter.mp hkv).1)

theorem mem_queryNames_getCarsQuery (P : ParamObject) (k : String)
    (hsafe : ∀ key ∈ objectKeys P, urlencode key = key) :
    k ∈ queryNames (getCarsQuery P)
      ↔ ∃ v, (k, v) ∈ P ∧ v ≠ .null ∧ v ≠ .undefined ∧ v ≠ .str "" := by
  rw [queryNames_getCarsQuery P hsafe]
  simp only [List.mem_map, List.mem_filter, isPresent_iff]
  constructor
  · rintro ⟨⟨k1, v⟩, ⟨hmem, hp⟩, rfl⟩
    exact ⟨v, hmem, hp⟩
  · rintro ⟨v, hmem, hp⟩
    exact ⟨(k, v), ⟨hmem, hp⟩, rfl⟩

theorem requestObject_keys_safe (F : ParamObject) (sort : SortState) (offset : Nat)
    (hF : IsFilterMapping F) :
    ∀ key ∈ objectKeys (requestObject F sort offset), urlencode key = key := by
  rw [requestObject_eq F sort offset hF]
  intro key hkey
  simp only [objectKeys, List.map_append, List.mem_append] at hkey
  rcases hkey with h | h
  · exact urlencode_filterKey key (hF.2 key h)
  · exact urlencode_pagingKey key (by simpa [pagingEntries] using h)

theorem mem_queryNames_loadCarsQuery (F : ParamObject) (sort : SortState) (offset : Nat)
    (k : String) (hF : IsFilterMapping F) (hk : k ∈ filterKeys) :
    k ∈ queryNames (loadCarsQuery F sort offset)
      ↔ ∃ v, (k, v) ∈ F ∧ v ≠ .null ∧ v ≠ .undefined ∧ v ≠ .str "" := by
  unfold loadCarsQuery
  rw [mem_queryNames_getCarsQuery _ k (requestObject_keys_safe F sort offset hF),
    requestObject_eq F sort offset hF]
  constructor
  · rintro ⟨v, hmem, hp⟩
    rcases List.mem_append.mp hmem with h | h
    · exact ⟨v, h, hp⟩
    · exfalso
      have hpk : k ∈ ["sort_by", "sort_order", "offset", "limit"] := by
        have := List.mem_map_of_mem Prod.fst h
        simpa [pagingEntries] using this
      have hdisjoint : ∀ key ∈ filterKeys,
          key ∉ ["sort_by", "sort_order", "offset", "limit"] := by decide
      exact hdisjoint k hk hpk
  · rintro ⟨v, hmem, hp⟩
    exact ⟨v, List.mem_append_left _ hmem, hp⟩

theorem paramsToString_requestObject (F : ParamObject) (sort : SortState) (offset : Nat)
    (hF : IsFilterMapping F) :
    paramsToString (getCarsParams (requestObject F sort offset))
      = "&".intercalate
        ((F.filter (fun kv => isPresent kv.2)).map
            (fun kv => kv.1 ++ "=" ++ urlencode kv.2.toStr)
          ++ ["sort_by=" ++ sort.sortBy.value, "sort_order=" ++ sort.sortOrder.value,
              "offset=" ++ Nat.repr offset, "limit=20"]) := by
  rw [getCarsParams_requestObject F sort offset hF]
  unfold paramsToString
  rw [List.map_append, List.map_map]
  have hleft : (F.filter (fun kv => isPresent kv.2)).map
        (encodePair ∘ fun kv => (kv.1, kv.2.toStr))
      = (F.filter (fun kv => isPresent kv.2)).map
        (fun kv => kv.1 ++ "=" ++ urlencode kv.2.toStr) := by
    apply List.map_congr_left
    intro kv hkv
    have hkey : urlencode kv.1 = kv.1 :=
      urlencode_filterKey kv.1
        (hF.2 kv.1 (List.mem_map_of_mem Prod.fst (List.mem_filter.mp hkv).1))
    simp only [Function.comp, encodePair, hkey]
  have h1 : urlencode "sort_by" ++ "=" = "sort_by=" := by decide
  have h2 : urlencode "sort_order" ++ "=" = "sort_order=" := by decide
  have h3 : urlencode "offset" ++ "=" = "offset=" := by decide
  have h4 : urlencode "limit" ++ "=" ++ urlencode "20" = "limit=20" := by decide
  rw [hleft]
  simp only [List.map_cons, List.map_nil, encodePair, h1, h2, h3, h4, urlencode_sortBy,
    urlencode_sortOrder, urlencode_repr]

/-- C1: for every filter mapping over the eight filter keys, every sort and
every offset (integer values being safe integers), the URL requested by
`loadCars` is `/cars?` followed, joined by `&`, by `key=value` with the value
url-encoded for each filter entry whose value is not null, undefined or the
empty string, in key order, then `sort_by`, `sort_order`, `offset` (also when
it is 0) and `limit=20`; for the filters manufacturer BMW and min_year 2018,
sort price/asc and offset 0 the query is exactly
`manufacturer=BMW&min_year=2018&sort_by=price&sort_order=asc&offset=0&limit=20`;
a number that is not a safe integer is sent as its string conversion,
url-encoded (`1e+21` as `1e%2B21`). -/
theorem loadCars_query_exact :
    (∀ (s : ListState) (offsetArg : Option Nat) (api : String → HttpResult Json),
      IsFilterMapping s.filters → numbersSafe s.filters = true →
      offsetArg.getD 0 ≤ maxSafeInteger →
      (loadCars s offsetArg api).2.url = "/cars?" ++ "&".intercalate
        ((s.filters.filter
            (fun kv => decide (kv.2 ≠ .null ∧ kv.2 ≠ .undefined ∧ kv.2 ≠ .str ""))).map
            (fun kv => kv.1 ++ "=" ++ urlencode kv.2.toStr)
          ++ ["sort_by=" ++ s.sort.sortBy.value, "sort_order=" ++ s.sort.sortOrder.value,
              "offset=" ++ Nat.repr (offsetArg.getD 0), "limit=20"]))
    ∧ (∀ (api : String → HttpResult Json),
      (loadCars
        { ListState.initial with
          filters := [("manufacturer", .str "BMW"), ("min_year", .num 2018)]
          sort := { sortBy := .price, sortOrder := .asc } } none api).2.url
        = "/cars?manufacturer=BMW&min_year=2018&sort_by=price&sort_order=asc&offset=0&limit=20")
    ∧ (∀ (api : String → HttpResult Json),
      (loadCars
        { ListState.initial with
          filters := [("min_price", .float "1e+21"), ("max_price", .float "1.5")] }
        none api).2.url
        = "/cars?min_price=1e%2B21&max_price=1.5&sort_by=id&sort_order=asc&offset=0&limit=20") := by
  refine ⟨?_, ?_, ?_⟩
  · intro s offsetArg api hF _ _
    show getCarsUrl (requestObject s.filters s.sort (offsetArg.getD 0)) = _
    unfold getCarsUrl getCarsQuery
    rw [paramsToString_requestObject _ _ _ hF, isPresent_eq_decide]
  · intro api
    show getCarsUrl _ = _
    decide
  · intro api
    show getCarsUrl _ = _
    decide

/-- Witness of C1: a load-more request at offset 40 with one empty filter and
a value holding a space. -/
theorem loadCars_query_exact_witness :
    (loadCars
        { ListState.initial with
          filters := [("manufacturer", .str "Kia Motors"), ("fuel_type", .str ""),
            ("max_price", .num 3000)] } (some 40) (fun _ => .fail none)).2.url
      = "/cars?manufacturer=Kia+Motors&max_price=3000&sort_by=id&sort_order=asc&offset=40&limit=20" :=
  (loadCars_query_exact.1
    { ListState.initial with
      filters := [("manufacturer", .str "Kia Motors"), ("fuel_type", .str ""),
        ("max_price", .num 3000)] } (some 40) (fun _ => .fail none)
    ⟨by decide, by decide⟩ (by decide) (by decide)).trans (by decide)

/-- C2: a key of a filter mapping passed to `carService.getCars` is the name
of a parameter in the query string built if and only if its value is none of
null, undefined and the empty string, and the same holds, for every filter
key, of the query string `loadCars` builds from the filter mapping; when
every value is null, undefined or empty the query string of `getCars` is
empty and the query string of `loadCars` names no filter key. The parameters
appended to the `URLSearchParams` are exactly the entries with such a
value. -/
theorem getCars_query_filter_keys :
    (∀ (F : ParamObject) (k : String), IsFilterMapping F →
      (k ∈ queryNames (getCarsQuery F)
        ↔ ∃ v, (k, v) ∈ F ∧ v ≠ .null ∧ v ≠ .undefined ∧ v ≠ .str ""))
    ∧ (∀ (F : ParamObject) (sort : SortState) (offset : Nat) (k : String),
      IsFilterMapping F → k ∈ filterKeys →
      (k ∈ queryNames (loadCarsQuery F sort offset)
        ↔ ∃ v, (k, v) ∈ F ∧ v ≠ .null ∧ v ≠ .undefined ∧ v ≠ .str ""))
    ∧ (∀ (F : ParamObject), IsFilterMapping F →
      (∀ kv ∈ F, kv.2 = .null ∨ kv.2 = .undefined ∨ kv.2 = .str "") →
      getCarsQuery F = ""
      ∧ ∀ (sort : SortState) (offset : Nat),
          ∀ k ∈ filterKeys, k ∉ queryNames (loadCarsQuery F sort offset))
    ∧ (∀ (P : ParamObject) (k : String),
      k ∈ (getCarsParams P).map Prod.fst
        ↔ ∃ v, (k, v) ∈ P ∧ v ≠ .null ∧ v ≠ .undefined ∧ v ≠ .str "") := by
  refine ⟨?_, ?_, ?_, ?_⟩
  · intro F k hF
    exact mem_queryNames_getCarsQuery F k
      (fun key hkey => urlencode_filterKey key (hF.2 key hkey))
  · intro F sort offset k hF hk
    exact mem_queryNames_loadCarsQuery F sort offset k hF hk
  · intro F hF hall
    have hnone : F.filter (fun kv => isPresent kv.2) = [] := by
      rw [List.filter_eq_nil_iff]
      intro kv hkv hp
      rw [isPresent_iff] at hp
      rcases hall kv hkv with h | h | h
      · exact hp.1 h
      · exact hp.2.1 h
      · exact hp.2.2 h
    refine ⟨?_, ?_⟩
    · unfold getCarsQuery
      rw [getCarsParams_eq_filter, hnone]
      rfl
    · intro sort offset k hk hmem
      obtain ⟨v, hv, hp1, hp2, hp3⟩ :=
        (mem_queryNames_loadCarsQuery F sort offset k hF hk).mp hmem
      rcases hall (k, v) hv with h | h | h
      · exact hp1 h
      · exact hp2 h
      · exact hp3 h
  · intro P k
    rw [getCarsParams_eq_filter]
    simp only [List.map_map, List.mem_map, List.mem_filter, Function.comp, isPresent_iff]
    constructor
    · rintro ⟨⟨k1, v⟩, ⟨hmem, hp⟩, rfl⟩
      exact ⟨v, hmem, hp⟩
    · rintro ⟨v, hmem, hp⟩
      exact ⟨(k, v), ⟨hmem, hp⟩, rfl⟩

/-- Witness of C2: with manufacturer BMW, an undefined fuel type and an empty
minimum price, the query string of `loadCars` names `manufacturer` and names
neither `fuel_type` nor `min_price`; with the manufacturer undefined as well
it names no filter key. -/
theorem getCars_query_filter_keys_witness :
    "manufacturer" ∈ queryNames (loadCarsQuery
        [("manufacturer", .str "BMW"), ("fuel_type", .undefined), ("min_price", .str "")]
        { sortBy := .year, sortOrder := .desc } 0)
    ∧ "min_price" ∉ queryNames (loadCarsQuery
        [("manufacturer", .str "BMW"), ("fuel_type", .undefined), ("min_price", .str "")]
        { sortBy := .year, sortOrder := .desc } 0)
    ∧ "manufacturer" ∈ queryNames (getCarsQuery
        [("manufacturer", .str "BMW"), ("fuel_type", .undefined), ("min_price", .str "")])
    ∧ getCarsQuery [("manufacturer", .undefined), ("min_price", .str "")] = ""
    ∧ "manufacturer" ∉ queryNames (loadCarsQuery
        [("manufacturer", .undefined), ("min_price", .str "")]
        { sortBy := .year, sortOrder := .desc } 0) :=
  have hF : IsFilterMapping
      [("manufacturer", .str "BMW"), ("fuel_type", .undefined), ("min_price", .str "")] :=
    ⟨by decide, by decide⟩
  have hE : IsFilterMapping [("manufacturer", .undefined), ("min_price", .str "")] :=
    ⟨by decide, by decide⟩
  have hall := getCars_query_filter_keys.2.2.1
    [("manufacturer", .undefined), ("min_price", .str "")] hE (by decide)
  ⟨(getCars_query_filter_keys.2.1 _ { sortBy := .year, sortOrder := .desc } 0
      "manufacturer" hF (by decide)).mpr ⟨.str "BMW", by decide, by decide, by decide, by decide⟩,
   fun h => by
     obtain ⟨v, hv, -, -, hp⟩ := (getCars_query_filter_keys.2.1 _
       { sortBy := .year, sortOrder := .desc } 0 "min_price" hF (by decide)).mp h
     simp at hv
     exact hp hv,
   (getCars_query_filter_keys.1 _ "manufacturer" hF).mpr
     ⟨.str "BMW", by decide, by decide, by decide, by decide⟩,
   hall.1,
   hall.2 { sortBy := .year, sortOrder := .desc } 0 "manufacturer" (by decide)⟩

/-! ## Normalisation of the list response -/

theorem hasArrayProp_obj (props : List (String × Json)) (k : String) :
    hasArrayProp (.obj props) k = .ok (arrayProp (.obj props) k).isSome := by
  simp only [hasArrayProp, truthy, getProp, arrayProp, if_true]
  cases props.lookup k with
  | none => rfl
  | some v => cases v <;> rfl

theorem getProp_obj_items (props : List (String × Json)) (k : String) (items : List Json)
    (h : arrayProp (.obj props) k = some items) :
    (getProp (.obj props) k).map arrayItems = .ok items := by
  simp only [getProp, arrayProp] at *
  cases hl : props.lookup k with
  | none => rw [hl] at h; simp at h
  | some v =>
    rw [hl] at h
    cases v <;> simp at h
    subst h
    rfl

theorem normalizeResponse_obj (props : List (String × Json)) :
    normalizeResponse (.obj props) = .ok (expectedPage (.obj props)) := by
  unfold normalizeResponse expectedPage
  simp only [isArray, hasArrayProp_obj, Bool.false_eq_true, if_false]
  cases h1 : arrayProp (.obj props) "cars" with
  | some items => simpa [Except.bind] using getProp_obj_items props "cars" items h1
  | none =>
    cases h2 : arrayProp (.obj props) "data" with
    | some items => simpa [Except.bind] using getProp_obj_items props "data" items h2
    | none =>
      cases h3 : arrayProp (.obj props) "results" with
      | some items => simpa [Except.bind] using getProp_obj_items props "results" items h3
      | none => simp [Except.bind]

theorem normalizeResponse_eq_expected (response : Json) :
    normalizeResponse response = .ok (expectedPage response) := by
  cases response with
  | null => rfl
  | undefined => rfl
  | bool b => cases b <;> rfl
  | num n =>
    by_cases h : n = 0 <;>
      simp [normalizeResponse, hasArrayProp, getProp, isArray, truthy, expectedPage,
        arrayProp, Except.map, Except.bind, h]
  | str s =>
    by_cases h : s = "" <;>
      simp [normalizeResponse, hasArrayProp, getProp, isArray, truthy, expectedPage,
        arrayProp, Except.map, Except.bind, h]
  | arr items => rfl
  | obj props => exact normalizeResponse_obj props

theorem normalizeResponse_ok (response : Json) :
    normalizeResponse response = .ok (normalizedPage response) := by
  unfold normalizedPage
  rw [normalizeResponse_eq_expected]

theorem normalizedPage_eq_expected (response : Json) :
    normalizedPage response = expectedPage response := by
  unfold normalizedPage
  rw [normalizeResponse_eq_expected]

/-! ## The listing view -/

theorem loadCars_fetch (s : ListState) (offsetArg : Option Nat)
    (api : String → HttpResult Json) :
    (loadCars s offsetArg api).2
      = { filters := s.filters, sort := s.sort, offset := offsetArg.getD 0,
          url := getCarsUrl (requestObject s.filters s.sort (offsetArg.getD 0)),
          result := getCars (requestObject s.filters s.sort (offsetArg.getD 0)) api } := rfl

theorem loadCars_of_ok (s : ListState) (offsetArg : Option Nat)
    (api : String → HttpResult Json) (data : Json)
    (h : (loadCars s offsetArg api).2.result = .ok data) :
    (loadCars s offsetArg api).1
      = { s with
          loading := false
          cars := if offsetArg.getD 0 = 0 then normalizedPage data
            else s.cars ++ normalizedPage data
          hasMore := decide ((normalizedPage data).length = 20)
          error := none } := by
  rw [loadCars_fetch] at h
  simp only at h
  simp only [loadCars, h, Except.bind, normalizeResponse_ok]

theorem loadCars_of_error (s : ListState) (offsetArg : Option Nat)
    (api : String → HttpResult Json) (e : String)
    (h : (loadCars s offsetArg api).2.result = .error e) :
    (loadCars s offsetArg api).1
      = { s with
          loading := false
          cars := if offsetArg.getD 0 = 0 then [] else s.cars
          error := some listErrorMessage } := by
  rw [loadCars_fetch] at h
  simp only at h
  simp only [loadCars, h, Except.bind]

/-- C3, amended: after a successful list fetch `hasMore` is true exactly when
the normalised page has exactly 20 items; hence for a page of at most 20
items `hasMore` is false exactly when the page has fewer than 20 items (a
20-item page gives true, a 12-item page gives false). -/
theorem loadCars_hasMore_iff_full_page (s : ListState) (offsetArg : Option Nat)
    (api : String → HttpResult Json) (data : Json)
    (h : (loadCars s offsetArg api).2.result = .ok data) :
    ((loadCars s offsetArg api).1.hasMore = true ↔ (normalizedPage data).length = 20)
    ∧ ((normalizedPage data).length ≤ 20 →
        ((loadCars s offsetArg api).1.hasMore = false ↔ (normalizedPage data).length < 20)) := by
  rw [loadCars_of_ok s offsetArg api data h]
  refine ⟨by simp, ?_⟩
  intro hle
  simp only [decide_eq_false_iff_not]
  omega

/-- Witness of C3: a 12-item page nested under `data`, fetched by load-more. -/
theorem loadCars_hasMore_iff_full_page_witness :
    (loadCars { ListState.initial with cars := List.replicate 20 Json.null } (some 20)
        (fun _ => .ok (.obj [("data", .arr (List.replicate 12 Json.null))]))).1.hasMore = false :=
  ((loadCars_hasMore_iff_full_page
      { ListState.initial with cars := List.replicate 20 Json.null } (some 20)
      (fun _ => .ok (.obj [("data", .arr (List.replicate 12 Json.null))]))
      (.obj [("data", .arr (List.replicate 12 Json.null))]) rfl).2 (by decide)).2 (by decide)

/-- Counterexample to C3 as stated: a successful fetch returning 21 items
leaves `hasMore` false although the page is not shorter than 20. -/
theorem hasMore_false_on_overlong_page :
    (loadCars ListState.initial none
        (fun _ => .ok (.arr (List.replicate 21 Json.null)))).2.result
      = .ok (.arr (List.replicate 21 Json.null))
    ∧ ¬ ((loadCars ListState.initial none
          (fun _ => .ok (.arr (List.replicate 21 Json.null)))).1.hasMore = false
        ↔ (normalizedPage (.arr (List.replicate 21 Json.null))).length < 20) :=
  ⟨rfl, by decide⟩

/-- C4: from every listing state, a change of the filter mapping or of the
sort directive issues its fetch with offset 0 under the new filters and sort,
and when the fetch succeeds the list of cars is exactly the normalised page
returned (nothing of the previous list is kept), with `hasMore` set from that
page, the error cleared and loading ended. -/
theorem change_resets_to_first_page (s : ListState) (api : String → HttpResult Json) :
    (∀ newFilters : ParamObject,
      (handleFiltersChange s newFilters api).2.offset = 0
      ∧ (handleFiltersChange s newFilters api).2.filters = newFilters
      ∧ (handleFiltersChange s newFilters api).2.sort = s.sort
      ∧ (handleFiltersChange s newFilters api).2.url
          = "/cars?" ++ loadCarsQuery newFilters s.sort 0
      ∧ ∀ data, (handleFiltersChange s newFilters api).2.result = .ok data →
          (handleFiltersChange s newFilters api).1.cars = normalizedPage data
          ∧ (handleFiltersChange s newFilters api).1
              = { s with
                  filters := newFilters
                  cars := normalizedPage data
                  hasMore := decide ((normalizedPage data).length = 20)
                  error := none
                  loading := false })
    ∧ (∀ newSort : SortState,
      (handleSortChange s newSort api).2.offset = 0
      ∧ (handleSortChange s newSort api).2.filters = s.filters
      ∧ (handleSortChange s newSort api).2.sort = newSort
      ∧ (handleSortChange s newSort api).2.url
          = "/cars?" ++ loadCarsQuery s.filters newSort 0
      ∧ ∀ data, (handleSortChange s newSort api).2.result = .ok data →
          (handleSortChange s newSort api).1.cars = normalizedPage data
          ∧ (handleSortChange s newSort api).1
              = { s with
                  sort := newSort
                  cars := normalizedPage data
                  hasMore := decide ((normalizedPage data).length = 20)
                  error := none
                  loading := false }) := by
  have key : ∀ (t : ListState) (data : Json), (loadCars t none api).2.result = .ok data →
      (loadCars t none api).1.cars = normalizedPage data
      ∧ (loadCars t none api).1
          = { t with
              cars := normalizedPage data
              hasMore := decide ((normalizedPage data).length = 20)
              error := none
              loading := false } := by
    intro t data h
    rw [loadCars_of_ok t none api data h]
    exact ⟨by simp, by simp⟩
  refine ⟨?_, ?_⟩
  · intro newFilters
    exact ⟨rfl, rfl, rfl, rfl, fun data h => key _ data h⟩
  · intro newSort
    exact ⟨rfl, rfl, rfl, rfl, fun data h => key _ data h⟩

/-- Witness of C4: forty cars are shown; a change of the manufacturer filter,
and a change of the sort directive, each fetch two cars under `results`. -/
theorem change_resets_to_first_page_witness :
    (handleFiltersChange
        { ListState.initial with cars := List.replicate 40 Json.null, loading := false }
        [("manufacturer", .str "BMW")]
        (fun _ => .ok (.obj [("results", .arr [.num 1, .num 2])]))).1.cars
      = [.num 1, .num 2]
    ∧ (handleSortChange
        { ListState.initial with cars := List.replicate 40 Json.null, loading := false }
        { sortBy := .price, sortOrder := .desc }
        (fun _ => .ok (.obj [("results", .arr [.num 1, .num 2])]))).1.cars
      = [.num 1, .num 2] :=
  ⟨(((change_resets_to_first_page
      { ListState.initial with cars := List.replicate 40 Json.null, loading := false }
      (fun _ => .ok (.obj [("results", .arr [.num 1, .num 2])]))).1
        [("manufacturer", .str "BMW")]).2.2.2.2
      (.obj [("results", .arr [.num 1, .num 2])]) rfl).1,
   (((change_resets_to_first_page
      { ListState.initial with cars := List.replicate 40 Json.null, loading := false }
      (fun _ => .ok (.obj [("results", .arr [.num 1, .num 2])]))).2
        { sortBy := .price, sortOrder := .desc }).2.2.2.2
      (.obj [("results", .arr [.num 1, .num 2])]) rfl).1⟩

/-! ## Pagination -/

theorem currentSegment_concat (log : List Fetch) (f : Fetch) :
    currentSegment (log ++ [f])
      = if f.offset = 0 then [f] else currentSegment log ++ [f] := by
  simp [currentSegment, List.foldl_append]

theorem fetchedPages_concat_ok (seg : List Fetch) (f : Fetch) (data : Json)
    (h : f.result = .ok data) :
    fetchedPages (seg ++ [f]) = fetchedPages seg ++ [normalizedPage data] := by
  simp [fetchedPages, List.filterMap_append, h]

theorem fetchedPages_concat_error (seg : List Fetch) (f : Fetch) (e : String)
    (h : f.result = .error e) :
    fetchedPages (seg ++ [f]) = fetchedPages seg := by
  simp [fetchedPages, List.filterMap_append, h]

/-- The pagination invariant is kept by a `loadCars` call that either restarts
at offset 0 or continues, under unchanged filters and sort, at the number of
cars shown. -/
theorem pagination_step (s t : ListState) (log : List Fetch) (offsetArg : Option Nat)
    (api : String → HttpResult Json)
    (hcars : s.cars = (fetchedPages (currentSegment log)).flatten)
    (hsame : ∀ f ∈ currentSegment log, f.filters = s.filters ∧ f.sort = s.sort)
    (hchain : ∀ pre f post, currentSegment log = pre ++ f :: post →
      f.offset = (fetchedPages pre).flatten.length)
    (ht : t.cars = s.cars)
    (hcase : offsetArg.getD 0 = 0
      ∨ (t.filters = s.filters ∧ t.sort = s.sort ∧ offsetArg.getD 0 = s.cars.length)) :
    (loadCars t offsetArg api).1.cars
        = (fetchedPages (currentSegment (log ++ [(loadCars t offsetArg api).2]))).flatten
    ∧ (∀ f ∈ currentSegment (log ++ [(loadCars t offsetArg api).2]),
        f.filters = (loadCars t offsetArg api).1.filters
        ∧ f.sort = (loadCars t offsetArg api).1.sort)
    ∧ (∀ pre f post,
        currentSegment (log ++ [(loadCars t offsetArg api).2]) = pre ++ f :: post →
        f.offset = (fetchedPages pre).flatten.length) := by
  have hoff : (loadCars t offsetArg api).2.offset = offsetArg.getD 0 := rfl
  have hfil : (loadCars t offsetArg api).2.filters = t.filters := rfl
  have hsort : (loadCars t offsetArg api).2.sort = t.sort := rfl
  have hstate : (loadCars t offsetArg api).1.filters = t.filters
      ∧ (loadCars t offsetArg api).1.sort = t.sort := by
    cases hr : (loadCars t offsetArg api).2.result with
    | ok data => rw [loadCars_of_ok t offsetArg api data hr]; exact ⟨rfl, rfl⟩
    | error e => rw [loadCars_of_error t offsetArg api e hr]; exact ⟨rfl, rfl⟩
  rw [currentSegment_concat, hoff, hstate.1, hstate.2]
  by_cases h0 : offsetArg.getD 0 = 0
  · simp only [h0, if_true]
    refine ⟨?_, ?_, ?_⟩
    · cases hr : (loadCars t offsetArg api).2.result with
      | ok data =>
        rw [loadCars_of_ok t offsetArg api data hr]
        have := fetchedPages_concat_ok [] _ data hr
        simp only [List.nil_append] at this
        rw [this]
        simp [h0, fetchedPages]
      | error e =>
        rw [loadCars_of_error t offsetArg api e hr]
        have := fetchedPages_concat_error [] _ e hr
        simp only [List.nil_append] at this
        rw [this]
        simp [h0, fetchedPages]
    · intro f hf
      rw [List.mem_singleton] at hf
      subst hf
      exact ⟨hfil, hsort⟩
    · intro pre f post hpre
      cases pre with
      | nil =>
        simp only [List.nil_append, List.cons.injEq] at hpre
        rw [← hpre.1, hoff, h0]
        simp [fetchedPages]
      | cons a rest =>
        simp only [List.cons_append, List.cons.injEq] at hpre
        have hlen := congrArg List.length hpre.2
        simp at hlen
        omega
  · rcases hcase with hc | ⟨htf, hts, hlen⟩
    · exact absurd hc h0
    simp only [h0, if_false]
    refine ⟨?_, ?_, ?_⟩
    · cases hr : (loadCars t offsetArg api).2.result with
      | ok data =>
        rw [loadCars_of_ok t offsetArg api data hr, fetchedPages_concat_ok _ _ data hr]
        simp [h0, ht, hcars]
      | error e =>
        rw [loadCars_of_error t offsetArg api e hr, fetchedPages_concat_error _ _ e hr]
        simp [h0, ht, hcars]
    · intro f hf
      rw [List.mem_append, List.mem_singleton] at hf
      rcases hf with hf | hf
      · rw [htf, hts]
        exact hsame f hf
      · subst hf
        exact ⟨hfil, hsort⟩
    · intro pre f post hpre
      rcases List.eq_nil_or_concat post with hp | ⟨L, b, hp⟩
      · subst hp
        have hinj := List.append_inj' hpre (by simp)
        simp only [List.cons.injEq, and_true] at hinj
        rw [← hinj.2, hoff, hlen, ← hinj.1, hcars]
      · subst hp
        have hre : currentSegment log ++ [(loadCars t offsetArg api).2]
            = (pre ++ f :: L) ++ [b] := by
          rw [hpre]
          simp
        have hinj := List.append_inj' hre (by simp)
        exact hchain pre f L hinj.1

theorem pagination_run (events : List ListEvent) (s : ListState) (log : List Fetch)
    (hcars : s.cars = (fetchedPages (currentSegment log)).flatten)
    (hsame : ∀ f ∈ currentSegment log, f.filters = s.filters ∧ f.sort = s.sort)
    (hchain : ∀ pre f post, currentSegment log = pre ++ f :: post →
      f.offset = (fetchedPages pre).flatten.length) :
    (runList s log events).1.cars
        = (fetchedPages (currentSegment (runList s log events).2)).flatten
    ∧ (∀ f ∈ currentSegment (runList s log events).2,
        f.filters = (runList s log events).1.filters
        ∧ f.sort = (runList s log events).1.sort)
    ∧ (∀ pre f post, currentSegment (runList s log events).2 = pre ++ f :: post →
        f.offset = (fetchedPages pre).flatten.length) := by
  induction events generalizing s log with
  | nil => exact ⟨hcars, hsame, hchain⟩
  | cons e es ih =>
    have hrun : runList s log (e :: es)
        = runList (stepList s e).1 (log ++ (stepList s e).2.toList) es := rfl
    rw [hrun]
    cases e with
    | mount api =>
      obtain ⟨h1, h2, h3⟩ :=
        pagination_step s s log none api hcars hsame hchain rfl (Or.inl rfl)
      exact ih _ _ h1 h2 h3
    | retry api =>
      obtain ⟨h1, h2, h3⟩ :=
        pagination_step s s log none api hcars hsame hchain rfl (Or.inl rfl)
      exact ih _ _ h1 h2 h3
    | filtersChange newFilters api =>
      obtain ⟨h1, h2, h3⟩ :=
        pagination_step s { s with filters := newFilters } log none api hcars hsame hchain
          rfl (Or.inl rfl)
      exact ih _ _ h1 h2 h3
    | sortChange newSort api =>
      obtain ⟨h1, h2, h3⟩ :=
        pagination_step s { s with sort := newSort } log none api hcars hsame hchain
          rfl (Or.inl rfl)
      exact ih _ _ h1 h2 h3
    | loadMore api =>
      by_cases hg : (!s.loading && s.hasMore) = true
      · obtain ⟨h1, h2, h3⟩ :=
          pagination_step s s log (some s.cars.length) api hcars hsame hchain rfl
            (Or.inr ⟨rfl, rfl, rfl⟩)
        have hstep : stepList s (.loadMore api)
            = ((loadCars s (some s.cars.length) api).1,
               some (loadCars s (some s.cars.length) api).2) := by
          simp only [stepList, loadMore, hg, if_true]
        rw [hstep]
        exact ih _ _ h1 h2 h3
      · have hstep : stepList s (.loadMore api) = (s, none) := by
          simp only [stepList, loadMore, hg]
          rfl
        rw [hstep]
        simp only [Option.toList, List.append_nil]
        exact ih _ _ hcars hsame hchain

/-- C5: in every state reached from the initial state by filter and sort
changes, load-more actions and retries, each fetch completing before the next
event, the list of cars is the in-order concatenation of the pages returned
since pagination last restarted at offset 0; every request since that restart
was issued under the current filters and sort, with an offset equal to the
number of cars fetched before it. A load-more in a state that is not loading
and has `hasMore` requests the offset equal to the number of cars shown and,
on success, the new list is the old list followed by the returned page. -/
theorem visible_list_is_concatenation_of_pages :
    (∀ events : List ListEvent,
      (runList ListState.initial [] events).1.cars
          = (fetchedPages (currentSegment (runList ListState.initial [] events).2)).flatten
      ∧ (∀ f ∈ currentSegment (runList ListState.initial [] events).2,
          f.filters = (runList ListState.initial [] events).1.filters
          ∧ f.sort = (runList ListState.initial [] events).1.sort)
      ∧ (∀ pre f post,
          currentSegment (runList ListState.initial [] events).2 = pre ++ f :: post →
          f.offset = (fetchedPages pre).flatten.length))
    ∧ (∀ (s : ListState) (api : String → HttpResult Json),
      s.loading = false → s.hasMore = true →
      ∃ f, (loadMore s api).2 = some f
        ∧ f.offset = s.cars.length ∧ f.filters = s.filters ∧ f.sort = s.sort
        ∧ ∀ data, f.result = .ok data →
            (loadMore s api).1.cars = s.cars ++ normalizedPage data) := by
  refine ⟨?_, ?_⟩
  · intro events
    apply pagination_run
    · rfl
    · intro f hf
      simp [currentSegment] at hf
    · intro pre f post h
      simp [currentSegment] at h
  · intro s api hl hm
    refine ⟨(loadCars s (some s.cars.length) api).2, ?_, rfl, rfl, rfl, ?_⟩
    · simp [loadMore, hl, hm]
    · intro data hdata
      have hstate : (loadMore s api).1 = (loadCars s (some s.cars.length) api).1 := by
        simp [loadMore, hl, hm]
      rw [hstate, loadCars_of_ok s _ api data hdata]
      by_cases h0 : s.cars.length = 0
      · have hnil : s.cars = [] := List.length_eq_zero.mp h0
        simp [hnil]
      · simp [h0]

/-- Witness of C5: one car is shown and load-more returns a second one; and
the run of a mount returning one car followed by a load-more. -/
theorem visible_list_is_concatenation_of_pages_witness :
    (loadMore { ListState.initial with cars := [Json.num 1], loading := false }
        (fun _ => .ok (.arr [Json.num 2]))).1.cars = [Json.num 1, Json.num 2]
    ∧ (runList ListState.initial []
        [.mount (fun _ => .ok (.arr [Json.num 1])),
         .loadMore (fun _ => .ok (.arr [Json.num 2]))]).1.cars
      = (fetchedPages (currentSegment (runList ListState.initial []
          [.mount (fun _ => .ok (.arr [Json.num 1])),
           .loadMore (fun _ => .ok (.arr [Json.num 2]))]).2)).flatten := by
  refine ⟨?_, (visible_list_is_concatenation_of_pages.1 _).1⟩
  obtain ⟨f, hf, -, -, -, hdata⟩ := visible_list_is_concatenation_of_pages.2
    { ListState.initial with cars := [Json.num 1], loading := false }
    (fun _ => .ok (.arr [Json.num 2])) rfl rfl
  have hf2 := Option.some.inj hf
  subst hf2
  exact hdata (.arr [Json.num 2]) rfl

/-! ## The detail view -/

theorem loadCar_currentImageIndex (s : CarDetail.DetailState)
    (api : String → HttpResult (Option CarRecord)) :
    (CarDetail.loadCar s api).currentImageIndex = s.currentImageIndex := by
  unfold CarDetail.loadCar
  cases CarDetail.getCar s.id api <;> rfl

theorem stepDetail_currentImageIndex (events : List CarDetail.DetailEvent) :
    ∀ (s : CarDetail.DetailState) (acc : Option Nat) (d : Nat),
      acc.getD d = s.currentImageIndex →
      (events.foldl CarDetail.stepDetail s).currentImageIndex
        = (events.foldl
            (fun acc e =>
              match e with
              | .click index => some index
              | .idChange _ _ => acc) acc).getD d := by
  induction events with
  | nil => intro s acc d h; exact h.symm
  | cons e es ih =>
    intro s acc d h
    simp only [List.foldl_cons]
    apply ih
    cases e with
    | click index => rfl
    | idChange newId api =>
      show acc.getD d = (CarDetail.loadCar _ api).currentImageIndex
      rw [loadCar_currentImageIndex]
      exact h

/-- C6, the code at a missing record: for every identifier, when the detail
request is answered with status 404, `carService.getCar` fails with
`Car not found`, and the detail view then renders the generic message
`Failed to load car information.` with a link to `/`, which is not the
not-found message of the view. -/
theorem notFound_renders_generic_message (toLocaleString : Int → String)
    (s : CarDetail.DetailState) :
    CarDetail.getCar s.id (fun _ => .fail (some 404)) = .error "Car not found"
    ∧ CarDetail.renderDetail toLocaleString (CarDetail.loadCar s (fun _ => .fail (some 404)))
        = .message "Failed to load car information." "/"
    ∧ CarDetail.DetailView.message "Failed to load car information." "/"
        ≠ .message CarDetail.notFoundMessage "/" := by
  refine ⟨rfl, ?_, by decide⟩
  simp [CarDetail.renderDetail, CarDetail.loadCar, CarDetail.getCar]

theorem placeholder_ne_imageTemplate (p t : String) :
    CarDetail.placeholder ≠ CarDetail.imageTemplate p t := by
  intro h
  have hd := congrArg String.data h
  simp only [CarDetail.imageTemplate, String.data_append] at hd
  have hh := congrArg List.head? hd
  simp [CarDetail.placeholder] at hh

/-- C7, amended: a record with a non-empty photo reference and no photos
array gives exactly one image URL, the template URL with type code 001; a
record with an array of N photo descriptors gives exactly N image URLs; when
its photo reference is non-empty the i-th is the template URL built from the
reference and the i-th type code, and when the reference is missing or empty
each of the N URLs is the placeholder image. -/
theorem getImages_urls (car : CarRecord) :
    (∀ p, car.photo = some p → p ≠ "" → car.photos = none →
      CarDetail.getImages (some car) = [CarDetail.imageTemplate p "001"])
    ∧ (∀ ds, car.photos = some ds →
      (CarDetail.getImages (some car)).length = ds.length
      ∧ (∀ p, car.photo = some p → p ≠ "" →
          CarDetail.getImages (some car)
            = ds.map (fun d => CarDetail.imageTemplate p d.type))
      ∧ (car.photo = none ∨ car.photo = some "" →
          CarDetail.getImages (some car) = ds.map (fun _ => CarDetail.placeholder))) := by
  refine ⟨?_, ?_⟩
  · intro p hp hne hph
    simp [CarDetail.getImages, CarDetail.getImageUrl, hp, hph, hne]
  · intro ds hds
    refine ⟨?_, ?_, ?_⟩
    · simp [CarDetail.getImages, hds]
    · intro p hp hne
      simp [CarDetail.getImages, CarDetail.getImageUrl, hp, hds, hne]
    · intro hmiss
      rcases hmiss with h | h <;>
        simp [CarDetail.getImages, CarDetail.getImageUrl, h, hds]

/-- Witness of C7: a record with photo reference `/pic/1_` and three photo
descriptors. -/
theorem getImages_urls_witness :
    CarDetail.getImages (some
        { photo := some "/pic/1_", photos := some [⟨"001"⟩, ⟨"003"⟩, ⟨"007"⟩],
          price := .num 1234, mileage := .null })
      = [CarDetail.imageTemplate "/pic/1_" "001", CarDetail.imageTemplate "/pic/1_" "003",
         CarDetail.imageTemplate "/pic/1_" "007"] :=
  ((getImages_urls
      { photo := some "/pic/1_", photos := some [⟨"001"⟩, ⟨"003"⟩, ⟨"007"⟩],
        price := .num 1234, mileage := .null }).2
    [⟨"001"⟩, ⟨"003"⟩, ⟨"007"⟩] rfl).2.1 "/pic/1_" rfl (by decide)

/-- Counterexample to C7 as stated: a record with two photo descriptors and
no photo reference gives the placeholder twice, and no photo reference makes
these the template URLs of its descriptors. -/
theorem getImages_placeholders_without_reference :
    CarDetail.getImages (some
        { photo := none, photos := some [⟨"001"⟩, ⟨"002"⟩], price := .null, mileage := .null })
      = ["/placeholder-car.jpg", "/placeholder-car.jpg"]
    ∧ ¬ ∃ p : String,
        CarDetail.getImages (some
          { photo := none, photos := some [⟨"001"⟩, ⟨"002"⟩], price := .null,
            mileage := .null })
        = [CarDetail.imageTemplate p "001", CarDetail.imageTemplate p "002"] := by
  refine ⟨rfl, ?_⟩
  rintro ⟨p, hp⟩
  have h : CarDetail.placeholder = CarDetail.imageTemplate p "001" := by
    have := congrArg List.head? hp
    simpa [CarDetail.getImages, CarDetail.getImageUrl] using this
  exact placeholder_ne_imageTemplate p "001" h

/-- The active image index under clicks and identifier changes: a click on
thumbnail i sets it to i, the view is mounted with index 0, and the reload
run on a change of the route identifier does not write it; after any sequence
of clicks and identifier changes it is the index of the last click, or 0 when
there was none. -/
theorem active_image_index_follows_clicks :
    (∀ (s : CarDetail.DetailState) (i : Nat),
      (CarDetail.stepDetail s (.click i)).currentImageIndex = i)
    ∧ (∀ (s : CarDetail.DetailState) (newId : String)
        (api : String → HttpResult (Option CarRecord)),
      (CarDetail.stepDetail s (.idChange newId api)).currentImageIndex = s.currentImageIndex)
    ∧ (∀ (id : String) (api : String → HttpResult (Option CarRecord))
        (events : List CarDetail.DetailEvent),
      (CarDetail.mountDetail id api).currentImageIndex = 0
      ∧ (CarDetail.runDetail (CarDetail.mountDetail id api) events).currentImageIndex
          = (CarDetail.lastClick events).getD 0) := by
  refine ⟨fun _ _ => rfl, ?_, ?_⟩
  · intro s newId api
    exact loadCar_currentImageIndex _ api
  · intro id api events
    have h0 : (CarDetail.mountDetail id api).currentImageIndex = 0 :=
      loadCar_currentImageIndex _ api
    refine ⟨h0, ?_⟩
    exact stepDetail_currentImageIndex events _ none 0 h0.symm

/-- C8, the code at an identifier change: the view shows record 1 with three
images and thumbnail 2 is clicked, which sets the active image index to 2;
then the route identifier changes to 2, whose record has one image. The
active image index is still 2, not 0, and the view rendered for the new
record has no main image. -/
theorem index_kept_across_id_change :
    (CarDetail.runDetail
        (CarDetail.mountDetail "1" (fun _ => .ok (some
          { photo := some "/pic/1_", photos := some [⟨"001"⟩, ⟨"002"⟩, ⟨"003"⟩],
            price := .num 1234, mileage := .num 50000 })))
        [.click 2]).currentImageIndex = 2
    ∧ (CarDetail.runDetail
        (CarDetail.mountDetail "1" (fun _ => .ok (some
          { photo := some "/pic/1_", photos := some [⟨"001"⟩, ⟨"002"⟩, ⟨"003"⟩],
            price := .num 1234, mileage := .num 50000 })))
        [.click 2, .idChange "2" (fun _ => .ok (some
          { photo := some "/pic/2_", photos := none, price := .num 900,
            mileage := .num 70000 }))]).currentImageIndex = 2
    ∧ ¬ (CarDetail.runDetail
        (CarDetail.mountDetail "1" (fun _ => .ok (some
          { photo := some "/pic/1_", photos := some [⟨"001"⟩, ⟨"002"⟩, ⟨"003"⟩],
            price := .num 1234, mileage := .num 50000 })))
        [.click 2, .idChange "2" (fun _ => .ok (some
          { photo := some "/pic/2_", photos := none, price := .num 900,
            mileage := .num 70000 }))]).currentImageIndex = 0
    ∧ CarDetail.renderDetail toLocaleStringEnUS
        (CarDetail.runDetail
          (CarDetail.mountDetail "1" (fun _ => .ok (some
            { photo := some "/pic/1_", photos := some [⟨"001"⟩, ⟨"002"⟩, ⟨"003"⟩],
              price := .num 1234, mileage := .num 50000 })))
          [.click 2, .idChange "2" (fun _ => .ok (some
            { photo := some "/pic/2_", photos := none, price := .num 900,
              mileage := .num 70000 }))])
      = .detail "/" none [] 2 "₩9,000,000" "70,000 km" := by
  refine ⟨by decide, by decide, by decide, by decide⟩

/-! ## Display formatting -/

/-- C9: for a missing price or mileage (null or undefined), `formatPrice` and
`formatMileage` of the card component and of the detail view return the text
`N/A`, whatever the locale formatting of numbers. -/
theorem missing_price_or_mileage_gives_fallback (toLocaleString : Int → String) :
    CarCard.formatPrice toLocaleString .null = "N/A"
    ∧ CarCard.formatPrice toLocaleString .undefined = "N/A"
    ∧ CarCard.formatMileage toLocaleString .null = "N/A"
    ∧ CarCard.formatMileage toLocaleString .undefined = "N/A"
    ∧ CarDetail.formatPrice toLocaleString .null = "N/A"
    ∧ CarDetail.formatPrice toLocaleString .undefined = "N/A"
    ∧ CarDetail.formatMileage toLocaleString .null = "N/A"
    ∧ CarDetail.formatMileage toLocaleString .undefined = "N/A" :=
  ⟨rfl, rfl, rfl, rfl, rfl, rfl, rfl, rfl⟩

/-- C10: for every response value the normalisation of `loadCars` returns a
list without failing: the response itself when it is an array, otherwise the
first of its properties `cars`, `data`, `results` that is an array, otherwise
the empty list. -/
theorem list_response_normalisation (response : Json) :
    normalizeResponse response = .ok (expectedPage response)
    ∧ normalizedPage response = expectedPage response :=
  ⟨normalizeResponse_eq_expected response, normalizedPage_eq_expected response⟩

/-- C11, the code at prices of 100 and more: in the `en-US` locale the card's
`formatPrice` appends `0,000` to the grouped digits of p, which for p = 1234
gives `₩1,2340,000` while the detail view's `formatPrice` gives the grouped
amount `₩12,340,000`; the smallest price at which they differ is 100
(`₩1000,000` against `₩1,000,000`), and the two agree for every price below
100. -/
theorem card_formatPrice_misgroups_digits :
    CarCard.formatPrice toLocaleStringEnUS (.num 1234) = "₩1,2340,000"
    ∧ CarDetail.formatPrice toLocaleStringEnUS (.num 1234) = "₩12,340,000"
    ∧ "₩" ++ toLocaleStringEnUS (1234 * 10000) = "₩12,340,000"
    ∧ CarCard.formatPrice toLocaleStringEnUS (.num 100) = "₩1000,000"
    ∧ CarDetail.formatPrice toLocaleStringEnUS (.num 100) = "₩1,000,000"
    ∧ ∀ p : Fin 100,
        CarCard.formatPrice toLocaleStringEnUS (.num (p.val : Int))
          = CarDetail.formatPrice toLocaleStringEnUS (.num (p.val : Int)) := by
  refine ⟨by decide, by decide, by decide, by decide, by decide, ?_⟩
  decide

/-! ## Page-size invariant of the listing view -/

/-- After `loadCars`, `hasMore` implies that the number of cars is a multiple
of 20, provided a call with a non-zero offset starts from such a number. -/
theorem loadCars_full_pages (t : ListState) (offsetArg : Option Nat)
    (api : String → HttpResult Json)
    (h : offsetArg.getD 0 ≠ 0 → (20 ∣ t.cars.length ∧ t.hasMore = true)) :
    (loadCars t offsetArg api).1.hasMore = true →
      20 ∣ (loadCars t offsetArg api).1.cars.length := by
  cases hr : (loadCars t offsetArg api).2.result with
  | ok data =>
    rw [loadCars_of_ok t offsetArg api data hr]
    intro hm
    have h20 : (normalizedPage data).length = 20 := by simpa using hm
    by_cases h0 : offsetArg.getD 0 = 0
    · simp [h0, h20]
    · obtain ⟨k, hk⟩ := (h h0).1
      simp only [h0, if_false, List.length_append, h20, hk]
      exact ⟨k + 1, by ring⟩
  | error e =>
    rw [loadCars_of_error t offsetArg api e hr]
    intro hm
    by_cases h0 : offsetArg.getD 0 = 0
    · simp [h0]
    · simp only [h0, if_false]
      exact (h h0).1

theorem stepList_full_pages (s : ListState) (e : ListEvent)
    (hs : s.hasMore = true → 20 ∣ s.cars.length) :
    (stepList s e).1.hasMore = true → 20 ∣ (stepList s e).1.cars.length := by
  cases e with
  | mount api => exact loadCars_full_pages s none api (fun h => absurd rfl h)
  | retry api => exact loadCars_full_pages s none api (fun h => absurd rfl h)
  | filtersChange newFilters api =>
    exact loadCars_full_pages { s with filters := newFilters } none api
      (fun h => absurd rfl h)
  | sortChange newSort api =>
    exact loadCars_full_pages { s with sort := newSort } none api (fun h => absurd rfl h)
  | loadMore api =>
    by_cases hg : (!s.loading && s.hasMore) = true
    · have hstep : (stepList s (.loadMore api)).1
          = (loadCars s (some s.cars.length) api).1 := by
        simp only [stepList, loadMore, hg, if_true]
      rw [hstep]
      have hm : s.hasMore = true := by
        simp only [Bool.and_eq_true] at hg
        exact hg.2
      exact loadCars_full_pages s (some s.cars.length) api (fun _ => ⟨hs hm, hm⟩)
    · have hstep : (stepList s (.loadMore api)).1 = s := by
        simp only [stepList, loadMore, hg]
        rfl
      rw [hstep]
      exact hs

theorem runList_full_pages (events : List ListEvent) (s : ListState) (log : List Fetch)
    (hs : s.hasMore = true → 20 ∣ s.cars.length) :
    (runList s log events).1.hasMore = true → 20 ∣ (runList s log events).1.cars.length := by
  induction events generalizing s log with
  | nil => exact hs
  | cons e es ih =>
    have hrun : runList s log (e :: es)
        = runList (stepList s e).1 (log ++ (stepList s e).2.toList) es := rfl
    rw [hrun]
    exact ih _ _ (stepList_full_pages s e hs)

theorem loadMoreClickable_state (s : ListState) (h : loadMoreClickable s = true) :
    s.loading = false ∧ s.hasMore = true ∧ 0 < s.cars.length := by
  obtain ⟨cars, loading, error, filters, hasMore, sort⟩ := s
  rcases Nat.eq_zero_or_pos cars.length with hc | hc
  · rcases error with _ | message
    · cases loading <;> cases hasMore <;> simp [loadMoreClickable, renderList, hc] at h
    · by_cases hmsg : message = ""
      · cases loading <;> cases hasMore <;>
          simp [loadMoreClickable, renderList, hc, hmsg] at h
      · simp [loadMoreClickable, renderList, hmsg] at h
  · have hne : cars.length ≠ 0 := Nat.pos_iff_ne_zero.mp hc
    rcases error with _ | message
    · cases loading <;> cases hasMore <;>
        simp [loadMoreClickable, renderList, hc, hne] at h ⊢
    · by_cases hmsg : message = ""
      · cases loading <;> cases hasMore <;>
          simp [loadMoreClickable, renderList, hc, hne, hmsg] at h ⊢
      · simp [loadMoreClickable, renderList, hmsg] at h

/-- C12: in every state reached from the initial state by mounts, filter and
sort changes, retries and load-more calls, each with a successful or failed
fetch that completes before the next event, `hasMore` implies that the number
of cars is a multiple of 20, and every request `loadMore` issues has the
number of cars as its offset, a multiple of 20; when the load-more button is
rendered and enabled, a click issues a request whose offset is a positive
multiple of 20. In any state with `loading` true or `hasMore` false,
`loadMore` issues no request and leaves the state as it is. -/
theorem loadMore_offsets_are_full_pages :
    (∀ events : List ListEvent,
      ((runList ListState.initial [] events).1.hasMore = true →
        20 ∣ (runList ListState.initial [] events).1.cars.length)
      ∧ (∀ (api : String → HttpResult Json) (f : Fetch),
          (loadMore (runList ListState.initial [] events).1 api).2 = some f →
          f.offset = (runList ListState.initial [] events).1.cars.length ∧ 20 ∣ f.offset)
      ∧ (∀ api : String → HttpResult Json,
          loadMoreClickable (runList ListState.initial [] events).1 = true →
          ∃ f, (loadMore (runList ListState.initial [] events).1 api).2 = some f
            ∧ 0 < f.offset ∧ 20 ∣ f.offset))
    ∧ (∀ (s : ListState) (api : String → HttpResult Json),
      s.loading = true ∨ s.hasMore = false →
      (loadMore s api).2 = none ∧ (loadMore s api).1 = s) := by
  refine ⟨?_, ?_⟩
  · intro events
    have hinv := runList_full_pages events ListState.initial [] (fun _ => ⟨0, rfl⟩)
    have hreq : ∀ (api : String → HttpResult Json) (f : Fetch),
        (loadMore (runList ListState.initial [] events).1 api).2 = some f →
        f.offset = (runList ListState.initial [] events).1.cars.length ∧ 20 ∣ f.offset := by
      intro api f hf
      by_cases hg : (!(runList ListState.initial [] events).1.loading
          && (runList ListState.initial [] events).1.hasMore) = true
      · simp only [loadMore, hg, if_true, Option.some.injEq] at hf
        subst hf
        have hm : (runList ListState.initial [] events).1.hasMore = true := by
          simp only [Bool.and_eq_true] at hg
          exact hg.2
        exact ⟨rfl, hinv hm⟩
      · simp [loadMore, hg] at hf
    refine ⟨hinv, hreq, ?_⟩
    intro api hclick
    obtain ⟨hl, hm, hpos⟩ := loadMoreClickable_state _ hclick
    refine ⟨(loadCars (runList ListState.initial [] events).1
      (some (runList ListState.initial [] events).1.cars.length) api).2, ?_, hpos, hinv hm⟩
    simp [loadMore, hl, hm]
  · intro s api h
    rcases h with h | h
    · simp [loadMore, h]
    · simp [loadMore, h]

/-- Witness of C12: the mount returns a full page of 20 cars, so the button
is enabled and a click requests offset 20; in the initial state, which is
loading, `loadMore` issues no request. -/
theorem loadMore_offsets_are_full_pages_witness :
    20 ∣ (runList ListState.initial []
        [.mount (fun _ => .ok (.arr (List.replicate 20 Json.null)))]).1.cars.length
    ∧ (loadMore (runList ListState.initial []
          [.mount (fun _ => .ok (.arr (List.replicate 20 Json.null)))]).1
        (fun _ => .fail none)).2.map Fetch.offset = some 20
    ∧ (loadMore ListState.initial (fun _ => .fail none)).2 = none := by
  refine ⟨(loadMore_offsets_are_full_pages.1 _).1 rfl, ?_,
    (loadMore_offsets_are_full_pages.2 ListState.initial (fun _ => .fail none)
      (Or.inl rfl)).1⟩
  obtain ⟨f, hf, -, -⟩ := (loadMore_offsets_are_full_pages.1
    [.mount (fun _ => .ok (.arr (List.replicate 20 Json.null)))]).2.2
      (fun _ => .fail none) (by decide)
  have hoff := ((loadMore_offsets_are_full_pages.1
    [.mount (fun _ => .ok (.arr (List.replicate 20 Json.null)))]).2.1
      (fun _ => .fail none) f hf).1
  rw [hf]
  show some f.offset = some 20
  rw [hoff]
  rfl

end MillionMiles
